import Mathlib

/-
A verification development for the in-memory banking core of
API-Bancaria-FastAPI (src/database.py, src/models.py).

The `DatabaseSimulator` class is embedded shallowly: its Python dicts become
association lists, its mutating methods become functions `DB → … → Except DBError (α × DB)`
(a raised `ValueError` is an `error`, which returns no new state — the Python
method raises before mutating on every failure path), and its read methods
become pure functions of the state.

Monetary values: the source uses Python floats with `round(x, 2)`.  We model
money as exact rationals (ℚ) and `round(x, 2)` as decimal round-half-even at
two fractional digits (Python's documented rounding mode); binary floating
point representation noise is not modelled.
-/

namespace Bank

/-- `TipoTransacao` from src/models.py (DEPOSIT / WITHDRAWAL). -/
inductive TipoTransacao : Type
  | deposito
  | saque
  deriving DecidableEq, Repr

/-- `TipoConta` from src/models.py (CHECKING / SAVINGS). -/
inductive TipoConta : Type
  | corrente
  | poupanca
  deriving DecidableEq, Repr

/-- The distinguishable `ValueError`s raised by `DatabaseSimulator`
(src/database.py lines 42, 75, 78, 125, 132), in the spec's taxonomy:
DuplicateIdentity, UnknownUser, AccountAlreadyExists, AccountNotFound,
InsufficientFunds. -/
inductive DBError : Type
  | cpfJaCadastrado
  | usuarioNaoEncontrado
  | usuarioJaPossuiConta
  | contaNaoEncontrada
  | saldoInsuficiente
  deriving DecidableEq, Repr

/-- Round a rational to the nearest integer, ties to even
(Python's `round` with no float-representation noise). -/
def roundHalfEven (q : ℚ) : ℤ :=
  let f : ℤ := ⌊q⌋
  let r : ℚ := q - (f : ℚ)
  if r < 1 / 2 then f
  else if 1 / 2 < r then f + 1
  else if f % 2 = 0 then f else f + 1

/-- Python's `round(x, 2)` on exact rationals. -/
def round2 (q : ℚ) : ℚ :=
  ((roundHalfEven (q * 100) : ℤ) : ℚ) / 100

/-- A user record (src/database.py lines 47-53; the wall-clock
`data_criacao` timestamp carries no claim and is omitted). -/
structure Usuario : Type where
  id : Nat
  nome : String
  cpf : String
  senha_hash : String
  deriving DecidableEq, Repr

/-- An account record (src/database.py lines 83-90; `data_criacao` omitted). -/
structure Conta : Type where
  id : Nat
  numero_conta : String
  tipo_conta : TipoConta
  saldo : ℚ
  usuario_id : Nat
  deriving DecidableEq, Repr

/-- A transaction record (src/database.py lines 141-150; `data_transacao`
omitted). -/
structure Transacao : Type where
  id : Nat
  conta_id : Nat
  tipo : TipoTransacao
  valor : ℚ
  descricao : Option String
  saldo_anterior : ℚ
  saldo_posterior : ℚ
  deriving DecidableEq, Repr

/-- The statistics view computed by `obter_estatisticas_conta`
(src/database.py lines 176-180). -/
structure Estatisticas : Type where
  total_depositos : ℚ
  total_saques : ℚ
  quantidade_transacoes : Nat
  deriving DecidableEq, Repr

/-- First-match lookup in an association list: the Python dict read `d.get(k)` /
`d[k]`.  Keys inserted by the embedded operations are always fresh, so the
first match is the only match. -/
def dictFind {α β : Type} [DecidableEq α] : List (α × β) → α → Option β
  | [], _ => none
  | p :: ps, a => if a = p.1 then some p.2 else dictFind ps a

/-- Keyed in-place update: the Python dict write `d[k] = f(d[k])` (a no-op on
the list when the key is absent). -/
def dictUpdate {α β : Type} [DecidableEq α] (l : List (α × β)) (a : α) (f : β → β) :
    List (α × β) :=
  l.map fun p => if p.1 = a then (p.1, f p.2) else p

/-- The whole `DatabaseSimulator` state (src/database.py lines 15-29). -/
structure DB : Type where
  usuarios : List (Nat × Usuario)
  contas : List (Nat × Conta)
  transacoes : List (Nat × Transacao)
  usuario_id_counter : Nat
  conta_id_counter : Nat
  transacao_id_counter : Nat
  cpf_to_usuario_id : List (String × Nat)
  usuario_id_to_conta_id : List (Nat × Nat)
  conta_id_to_transacoes : List (Nat × List Nat)
  deriving DecidableEq, Repr

/-- `DatabaseSimulator.__init__`: empty stores, all counters at 1. -/
def initDB : DB where
  usuarios := []
  contas := []
  transacoes := []
  usuario_id_counter := 1
  conta_id_counter := 1
  transacao_id_counter := 1
  cpf_to_usuario_id := []
  usuario_id_to_conta_id := []
  conta_id_to_transacoes := []

/-- Python's `str.zfill`. -/
def zfill (w : Nat) (st : String) : String :=
  ("".pushn '0' (w - st.length)) ++ st

/-- `gerar_numero_conta` (src/database.py lines 31-36).  The pseudo-random
check digit `random.randint(0, 9)` is passed in explicitly. -/
def gerar_numero_conta (conta_id_counter : Nat) (digito : Nat) : String :=
  "0001" ++ "-" ++ zfill 6 (toString conta_id_counter) ++ "-" ++ toString digito

/-- `criar_usuario` (src/database.py lines 39-58). -/
def criar_usuario (s : DB) (nome cpf senha_hash : String) :
    Except DBError (Usuario × DB) :=
  if (dictFind s.cpf_to_usuario_id cpf).isSome then
    Except.error DBError.cpfJaCadastrado
  else
    let usuario_id := s.usuario_id_counter
    let usuario : Usuario :=
      { id := usuario_id, nome := nome, cpf := cpf, senha_hash := senha_hash }
    Except.ok (usuario,
      { s with
        usuarios := (usuario_id, usuario) :: s.usuarios
        usuario_id_counter := usuario_id + 1
        cpf_to_usuario_id := (cpf, usuario_id) :: s.cpf_to_usuario_id })

/-- `obter_usuario_por_cpf` (src/database.py lines 60-65).  The Python
`if usuario_id:` truthiness test makes a 0 id fall through to `None`. -/
def obter_usuario_por_cpf (s : DB) (cpf : String) : Option Usuario :=
  match dictFind s.cpf_to_usuario_id cpf with
  | some usuario_id => if usuario_id ≠ 0 then dictFind s.usuarios usuario_id else none
  | none => none

/-- `obter_usuario_por_id` (src/database.py lines 67-69). -/
def obter_usuario_por_id (s : DB) (usuario_id : Nat) : Option Usuario :=
  dictFind s.usuarios usuario_id

/-- `criar_conta` (src/database.py lines 72-96).  Note that the Python code
increments `conta_id_counter` before calling `gerar_numero_conta`, so the
account number embeds `conta_id + 1`. -/
def criar_conta (s : DB) (usuario_id : Nat) (tipo_conta : TipoConta) (digito : Nat) :
    Except DBError (Conta × DB) :=
  if (dictFind s.usuarios usuario_id).isSome = false then
    Except.error DBError.usuarioNaoEncontrado
  else if (dictFind s.usuario_id_to_conta_id usuario_id).isSome then
    Except.error DBError.usuarioJaPossuiConta
  else
    let conta_id := s.conta_id_counter
    let conta : Conta :=
      { id := conta_id
        numero_conta := gerar_numero_conta (conta_id + 1) digito
        tipo_conta := tipo_conta
        saldo := 0
        usuario_id := usuario_id }
    Except.ok (conta,
      { s with
        contas := (conta_id, conta) :: s.contas
        conta_id_counter := conta_id + 1
        usuario_id_to_conta_id := (usuario_id, conta_id) :: s.usuario_id_to_conta_id
        conta_id_to_transacoes := (conta_id, []) :: s.conta_id_to_transacoes })

/-- `obter_conta_por_usuario` (src/database.py lines 98-103), with the same
`if conta_id:` truthiness as `obter_usuario_por_cpf`. -/
def obter_conta_por_usuario (s : DB) (usuario_id : Nat) : Option Conta :=
  match dictFind s.usuario_id_to_conta_id usuario_id with
  | some conta_id => if conta_id ≠ 0 then dictFind s.contas conta_id else none
  | none => none

/-- `obter_conta_por_id` (src/database.py lines 105-107). -/
def obter_conta_por_id (s : DB) (conta_id : Nat) : Option Conta :=
  dictFind s.contas conta_id

/-- `atualizar_saldo` (src/database.py lines 109-112): silently does nothing
when the account id is absent, otherwise stores the new balance rounded to 2
decimals. -/
def atualizar_saldo (s : DB) (conta_id : Nat) (novo_saldo : ℚ) : DB :=
  if (dictFind s.contas conta_id).isSome then
    { s with
      contas := dictUpdate s.contas conta_id fun c => { c with saldo := round2 novo_saldo } }
  else s

/-- The commit block of `criar_transacao` (src/database.py lines 137-158):
allocate the next transaction id, persist the record with both balance
snapshots rounded, append the id to the account's transaction index, and
update the account balance via `atualizar_saldo`. -/
def commitTransacao (s : DB) (conta_id : Nat) (tipo : TipoTransacao) (valor : ℚ)
    (descricao : Option String) (saldo_anterior saldo_posterior : ℚ) :
    Transacao × DB :=
  let transacao_id := s.transacao_id_counter
  let t : Transacao :=
    { id := transacao_id
      conta_id := conta_id
      tipo := tipo
      valor := round2 valor
      descricao := descricao
      saldo_anterior := round2 saldo_anterior
      saldo_posterior := round2 saldo_posterior }
  let s1 : DB :=
    { s with
      transacoes := (transacao_id, t) :: s.transacoes
      transacao_id_counter := transacao_id + 1
      conta_id_to_transacoes :=
        dictUpdate s.conta_id_to_transacoes conta_id fun l => l ++ [transacao_id] }
  (t, atualizar_saldo s1 conta_id saldo_posterior)

/-- `criar_transacao` (src/database.py lines 115-158).  The Python
`conta_id_to_transacoes[conta_id].append(...)` presumes the index key exists
(it does for every account created by `criar_conta`); `dictUpdate` makes the
same write and is a no-op on states that never arise. -/
def criar_transacao (s : DB) (conta_id : Nat) (tipo : TipoTransacao) (valor : ℚ)
    (descricao : Option String) : Except DBError (Transacao × DB) :=
  match obter_conta_por_id s conta_id with
  | none => Except.error DBError.contaNaoEncontrada
  | some conta =>
    let saldo_anterior := conta.saldo
    if tipo = TipoTransacao.saque then
      if saldo_anterior < valor then Except.error DBError.saldoInsuficiente
      else
        Except.ok (commitTransacao s conta_id tipo valor descricao saldo_anterior
          (saldo_anterior - valor))
    else
      Except.ok (commitTransacao s conta_id tipo valor descricao saldo_anterior
        (saldo_anterior + valor))

/-- `obter_transacoes_por_conta` (src/database.py lines 160-163).  Python
indexes `self.transacoes[tid]` directly; the invariants proved below show the
lookup never misses on reachable states, so the `filterMap` drops nothing. -/
def obter_transacoes_por_conta (s : DB) (conta_id : Nat) : List Transacao :=
  let transacao_ids := (dictFind s.conta_id_to_transacoes conta_id).getD []
  transacao_ids.filterMap fun tid => dictFind s.transacoes tid

/-- `obter_estatisticas_conta` (src/database.py lines 165-180): a pure
function of the state (it returns no new state). -/
def obter_estatisticas_conta (s : DB) (conta_id : Nat) : Estatisticas :=
  let transacoes := obter_transacoes_por_conta s conta_id
  { total_depositos :=
      round2 (((transacoes.filter fun t => t.tipo == TipoTransacao.deposito).map
        Transacao.valor).sum)
    total_saques :=
      round2 (((transacoes.filter fun t => t.tipo == TipoTransacao.saque).map
        Transacao.valor).sum)
    quantidade_transacoes := transacoes.length }

/-- `TransacaoBase.validar_valor_positivo` (src/models.py lines 78-83): the
input-schema boundary check.  Rejects a non-positive amount with a
`ValueError` (the spec's `InvalidAmount`), otherwise returns the amount
rounded to 2 decimals. -/
def validar_valor_positivo (v : ℚ) : Except String ℚ :=
  if v ≤ 0 then Except.error "O valor da transação deve ser positivo"
  else Except.ok (round2 v)

/-- One core operation: register / openAccount / applyTransaction
(the spec's §4 contract names for `criar_usuario`, `criar_conta`,
`criar_transacao`).  `digito` stands for the pseudo-random check digit. -/
inductive Op : Type
  | register (nome cpf senha_hash : String)
  | openAccount (usuario_id : Nat) (tipo_conta : TipoConta) (digito : Nat)
  | applyTransaction (conta_id : Nat) (tipo : TipoTransacao) (valor : ℚ)
      (descricao : Option String)

/-- A transaction operation carries a positive amount (what the input-schema
boundary guarantees for every amount that reaches the engine through the API). -/
def PositiveAmount : Op → Prop
  | Op.applyTransaction _ _ valor _ => 0 < valor
  | _ => True

/-- Run one operation; a raised error leaves the state as it was. -/
def step (s : DB) : Op → DB
  | Op.register nome cpf senha_hash =>
    match criar_usuario s nome cpf senha_hash with
    | Except.ok (_, s') => s'
    | Except.error _ => s
  | Op.openAccount usuario_id tipo_conta digito =>
    match criar_conta s usuario_id tipo_conta digito with
    | Except.ok (_, s') => s'
    | Except.error _ => s
  | Op.applyTransaction conta_id tipo valor descricao =>
    match criar_transacao s conta_id tipo valor descricao with
    | Except.ok (_, s') => s'
    | Except.error _ => s

/-- The state after a sequence of core operations on a fresh database. -/
def exec (ops : List Op) : DB :=
  ops.foldl step initDB

/-- `ChainedFrom b ts bN`: the transaction list `ts` replays from balance `b`
to balance `bN` — each record's balance-before is the running balance and its
balance-after becomes the running balance. -/
def ChainedFrom : ℚ → List Transacao → ℚ → Prop
  | b, [], bN => bN = b
  | b, t :: ts, bN => t.saldo_anterior = b ∧ ChainedFrom t.saldo_posterior ts bN

def chainedFromDec : (b : ℚ) → (ts : List Transacao) → (bN : ℚ) →
    Decidable (ChainedFrom b ts bN)
  | b, [], bN => inferInstanceAs (Decidable (bN = b))
  | _, t :: ts, bN =>
    have : Decidable (ChainedFrom t.saldo_posterior ts bN) :=
      chainedFromDec t.saldo_posterior ts bN
    inferInstanceAs (Decidable (_ ∧ _))

instance (b : ℚ) (ts : List Transacao) (bN : ℚ) : Decidable (ChainedFrom b ts bN) :=
  chainedFromDec b ts bN

/-- The spec's reading of `statistics`: the sum of amounts of the
transactions of one kind. -/
def somaPorTipo (tipo : TipoTransacao) (ts : List Transacao) : ℚ :=
  (ts.map fun t => if t.tipo = tipo then t.valor else 0).sum

/-- Whether an `Except` is a success. -/
def isOkE {ε α : Type} : Except ε α → Bool
  | Except.ok _ => true
  | Except.error _ => false

/-- The reachable-state invariant of `DatabaseSimulator`, proved below to hold
after every sequence of core operations: balances sit on the cent grid,
identifiers are below their counters, the side indices agree with the primary
stores, each account's transaction index is strictly increasing and resolves
to transactions of that account, and each account's ledger replays from 0 to
the current balance. -/
structure Inv (s : DB) : Prop where
  grid : ∀ p ∈ s.contas, round2 p.2.saldo = p.2.saldo
  contaFresh : ∀ p ∈ s.contas, p.1 < s.conta_id_counter
  idxKeyFresh : ∀ q ∈ s.conta_id_to_transacoes, q.1 < s.conta_id_counter
  contaHasIdx : ∀ p ∈ s.contas, (dictFind s.conta_id_to_transacoes p.1).isSome = true
  idxHasConta : ∀ q ∈ s.conta_id_to_transacoes, (dictFind s.contas q.1).isSome = true
  tidFresh : ∀ r ∈ s.transacoes, r.1 < s.transacao_id_counter
  idxTidFresh : ∀ q ∈ s.conta_id_to_transacoes, ∀ tid ∈ q.2, tid < s.transacao_id_counter
  idxSorted : ∀ q ∈ s.conta_id_to_transacoes, q.2.Pairwise (· < ·)
  idxResolve : ∀ q ∈ s.conta_id_to_transacoes, ∀ tid ∈ q.2,
    ∃ t, dictFind s.transacoes tid = some t ∧ t.conta_id = q.1 ∧ t.id = tid
  txIndexed : ∀ tid t, dictFind s.transacoes tid = some t →
    ∃ l, dictFind s.conta_id_to_transacoes t.conta_id = some l ∧ tid ∈ l
  chain : ∀ p ∈ s.contas, ChainedFrom 0 (obter_transacoes_por_conta s p.1) p.2.saldo

/-- All account balances are non-negative. -/
def SaldosNonneg (s : DB) : Prop := ∀ p ∈ s.contas, 0 ≤ p.2.saldo

/-- A register followed by an openAccount: user 1 with account 1, balance 0. -/
def opsBase : List Op :=
  [Op.register "Joao da Silva" "12345678900" "senha-hash",
   Op.openAccount 1 TipoConta.corrente 7]

def sBase : DB := exec opsBase

/-- The account produced by `opsBase` (the account number embeds the already
incremented counter 2 and the check digit 7). -/
def contaBase : Conta :=
  { id := 1, numero_conta := "0001-000002-7", tipo_conta := TipoConta.corrente,
    saldo := 0, usuario_id := 1 }

/-- `opsBase` followed by a deposit of 100 and a withdrawal of 30. -/
def opsLedger : List Op :=
  opsBase ++
    [Op.applyTransaction 1 TipoTransacao.deposito 100 (some "salario"),
     Op.applyTransaction 1 TipoTransacao.saque 30 none]

def contaLedger : Conta :=
  { id := 1, numero_conta := "0001-000002-7", tipo_conta := TipoConta.corrente,
    saldo := 70, usuario_id := 1 }

/-- `opsBase` followed by a direct engine call depositing a negative amount
(which the HTTP schema would have rejected, but the engine accepts). -/
def opsNegDeposito : List Op :=
  opsBase ++ [Op.applyTransaction 1 TipoTransacao.deposito (-5) none]

/- ------------------------------------------------------------------ -/
/- Rounding lemmas                                                     -/
/- ------------------------------------------------------------------ -/

theorem roundHalfEven_intCast (k : ℤ) : roundHalfEven (k : ℚ) = k := by
  unfold roundHalfEven
  norm_num

theorem roundHalfEven_nonneg {q : ℚ} (h : 0 ≤ q) : 0 ≤ roundHalfEven q := by
  have h0 : (0 : ℤ) ≤ ⌊q⌋ := Int.floor_nonneg.mpr h
  simp only [roundHalfEven]
  split_ifs <;> omega

theorem round2_cents (k : ℤ) : round2 ((k : ℚ) / 100) = (k : ℚ) / 100 := by
  have h : ((k : ℚ) / 100) * 100 = (k : ℚ) := by field_simp
  unfold round2
  rw [h, roundHalfEven_intCast]

theorem round2_round2 (q : ℚ) : round2 (round2 q) = round2 q :=
  round2_cents (roundHalfEven (q * 100))

theorem round2_zero : round2 0 = 0 := by
  simpa using round2_cents 0

theorem round2_nonneg {q : ℚ} (h : 0 ≤ q) : 0 ≤ round2 q := by
  have h1 : (0 : ℤ) ≤ roundHalfEven (q * 100) :=
    roundHalfEven_nonneg (by positivity)
  unfold round2
  exact div_nonneg (by exact_mod_cast h1) (by norm_num)

/- ------------------------------------------------------------------ -/
/- Association-list lemmas                                             -/
/- ------------------------------------------------------------------ -/

theorem dictFind_cons {α β : Type} [DecidableEq α] (k : α) (b : β) (l : List (α × β)) (a : α) :
    dictFind ((k, b) :: l) a = if a = k then some b else dictFind l a := rfl

theorem dictFind_mem {α β : Type} [DecidableEq α] :
    ∀ {l : List (α × β)} {a : α} {b : β}, dictFind l a = some b → (a, b) ∈ l
  | [], _, _, h => by simp [dictFind] at h
  | p :: ps, a, b, h => by
    rw [dictFind] at h
    split at h
    · next hak =>
      obtain rfl : p.2 = b := Option.some.inj h
      subst hak
      exact List.mem_cons_self _ _
    · next hak => exact List.mem_cons_of_mem _ (dictFind_mem h)

theorem dictFind_dictUpdate_self {α β : Type} [DecidableEq α] (l : List (α × β)) (a : α)
    (f : β → β) : dictFind (dictUpdate l a f) a = (dictFind l a).map f := by
  induction l with
  | nil => rfl
  | cons p ps ih =>
    by_cases hpa : p.1 = a
    · simp [dictFind, dictUpdate, hpa]
    · simp only [dictUpdate, List.map_cons, if_neg hpa] at *
      rw [dictFind, dictFind, if_neg (fun h => hpa h.symm), if_neg (fun h => hpa h.symm)]
      exact ih

theorem dictFind_dictUpdate_ne {α β : Type} [DecidableEq α] {a k : α} (l : List (α × β))
    (f : β → β) (hne : a ≠ k) : dictFind (dictUpdate l k f) a = dictFind l a := by
  induction l with
  | nil => rfl
  | cons p ps ih =>
    by_cases hpk : p.1 = k
    · simp only [dictUpdate, List.map_cons, if_pos hpk] at *
      rw [dictFind, dictFind, if_neg (hpk ▸ hne), if_neg (hpk ▸ hne)]
      exact ih
    · simp only [dictUpdate, List.map_cons, if_neg hpk] at *
      rw [dictFind, dictFind]
      split
      · rfl
      · exact ih

theorem dictFind_dictUpdate_isSome {α β : Type} [DecidableEq α] (l : List (α × β)) (k a : α)
    (f : β → β) : (dictFind (dictUpdate l k f) a).isSome = (dictFind l a).isSome := by
  by_cases hak : a = k
  · subst hak
    rw [dictFind_dictUpdate_self]
    cases dictFind l a <;> rfl
  · rw [dictFind_dictUpdate_ne _ _ hak]

theorem mem_dictUpdate {α β : Type} [DecidableEq α] {l : List (α × β)} {k : α} {f : β → β}
    {p : α × β} (h : p ∈ dictUpdate l k f) :
    ∃ q ∈ l, p.1 = q.1 ∧ ((q.1 ≠ k ∧ p = q) ∨ (q.1 = k ∧ p = (q.1, f q.2))) := by
  obtain ⟨q, hq, hpq⟩ := List.mem_map.1 h
  by_cases hqk : q.1 = k
  · rw [if_pos hqk] at hpq
    exact ⟨q, hq, by rw [← hpq], Or.inr ⟨hqk, hpq.symm⟩⟩
  · rw [if_neg hqk] at hpq
    exact ⟨q, hq, by rw [← hpq], Or.inl ⟨hqk, hpq.symm⟩⟩

/- ------------------------------------------------------------------ -/
/- ChainedFrom and filterMap lemmas                                    -/
/- ------------------------------------------------------------------ -/

theorem chainedFrom_nil {b bN : ℚ} : ChainedFrom b [] bN ↔ bN = b := Iff.rfl

theorem chainedFrom_cons {b bN : ℚ} {t : Transacao} {ts : List Transacao} :
    ChainedFrom b (t :: ts) bN ↔
      t.saldo_anterior = b ∧ ChainedFrom t.saldo_posterior ts bN := Iff.rfl

theorem chainedFrom_append {b m n : ℚ} {ts : List Transacao} {t : Transacao}
    (h : ChainedFrom b ts m) (h1 : t.saldo_anterior = m) (h2 : t.saldo_posterior = n) :
    ChainedFrom b (ts ++ [t]) n := by
  induction ts generalizing b with
  | nil =>
    have hb : m = b := h
    exact ⟨h1.trans hb, h2 ▸ rfl⟩
  | cons u us ih => exact ⟨h.1, ih h.2⟩

theorem chainedFrom_foldl {b bN : ℚ} {ts : List Transacao} (h : ChainedFrom b ts bN) :
    ts.foldl (fun _ t => t.saldo_posterior) b = bN := by
  induction ts generalizing b with
  | nil => exact h.symm
  | cons t ts ih => exact ih h.2

theorem chainedFrom_getLast {b bN : ℚ} {ts : List Transacao} {t : Transacao}
    (h : ChainedFrom b ts bN) (hl : ts.getLast? = some t) : t.saldo_posterior = bN := by
  induction ts generalizing b with
  | nil => simp at hl
  | cons u us ih =>
    cases us with
    | nil =>
      obtain rfl : u = t := by simpa using hl
      exact Eq.symm (h.2 : bN = _)
    | cons v vs =>
      rw [List.getLast?_cons_cons] at hl
      exact ih h.2 hl

theorem chainedFrom_unique {b x y : ℚ} {ts : List Transacao}
    (hx : ChainedFrom b ts x) (hy : ChainedFrom b ts y) : x = y := by
  induction ts generalizing b with
  | nil => exact (hx : x = b).trans (hy : y = b).symm
  | cons t ts ih => exact ih hx.2 hy.2

theorem filterMap_ext_mem {α β : Type} {l : List α} {f g : α → Option β}
    (h : ∀ a ∈ l, f a = g a) : l.filterMap f = l.filterMap g := by
  induction l with
  | nil => rfl
  | cons a as ih =>
    rw [List.filterMap_cons, List.filterMap_cons, h a (List.mem_cons_self a as),
      ih fun x hx => h x (List.mem_cons_of_mem _ hx)]

theorem filterMap_map_id {l : List Nat} {f : Nat → Option Transacao}
    (h : ∀ tid ∈ l, ∃ t, f tid = some t ∧ t.id = tid) :
    (l.filterMap f).map Transacao.id = l := by
  induction l with
  | nil => rfl
  | cons a as ih =>
    obtain ⟨t, hft, hid⟩ := h a (List.mem_cons_self a as)
    rw [List.filterMap_cons, hft]
    simp only [List.map_cons]
    rw [hid, ih fun x hx => h x (List.mem_cons_of_mem _ hx)]

/- ------------------------------------------------------------------ -/
/- Unfolding lemmas for the operations                                 -/
/- ------------------------------------------------------------------ -/

theorem obter_transacoes_def (s : DB) (cid : Nat) :
    obter_transacoes_por_conta s cid =
      ((dictFind s.conta_id_to_transacoes cid).getD []).filterMap
        (fun tid => dictFind s.transacoes tid) := rfl

theorem criar_transacao_not_found {s : DB} {cid : Nat} {tipo : TipoTransacao} {v : ℚ}
    {d : Option String} (h : dictFind s.contas cid = none) :
    criar_transacao s cid tipo v d = Except.error DBError.contaNaoEncontrada := by
  rw [criar_transacao, obter_conta_por_id, h]

theorem criar_transacao_saque_insuficiente {s : DB} {cid : Nat} {conta : Conta} {v : ℚ}
    {d : Option String} (h : dictFind s.contas cid = some conta) (hlt : conta.saldo < v) :
    criar_transacao s cid TipoTransacao.saque v d = Except.error DBError.saldoInsuficiente := by
  rw [criar_transacao, obter_conta_por_id, h]
  simp [hlt]

theorem criar_transacao_saque_ok {s : DB} {cid : Nat} {conta : Conta} {v : ℚ}
    {d : Option String} (h : dictFind s.contas cid = some conta) (hge : ¬ conta.saldo < v) :
    criar_transacao s cid TipoTransacao.saque v d =
      Except.ok (commitTransacao s cid TipoTransacao.saque v d conta.saldo
        (conta.saldo - v)) := by
  rw [criar_transacao, obter_conta_por_id, h]
  simp [hge]

theorem criar_transacao_deposito_ok {s : DB} {cid : Nat} {conta : Conta} {v : ℚ}
    {d : Option String} (h : dictFind s.contas cid = some conta) :
    criar_transacao s cid TipoTransacao.deposito v d =
      Except.ok (commitTransacao s cid TipoTransacao.deposito v d conta.saldo
        (conta.saldo + v)) := by
  rw [criar_transacao, obter_conta_por_id, h]
  simp

theorem commitTransacao_fst (s : DB) (cid : Nat) (tipo : TipoTransacao) (valor : ℚ)
    (d : Option String) (sa sp : ℚ) :
    (commitTransacao s cid tipo valor d sa sp).1 =
      { id := s.transacao_id_counter, conta_id := cid, tipo := tipo, valor := round2 valor,
        descricao := d, saldo_anterior := round2 sa, saldo_posterior := round2 sp } := rfl

theorem commitTransacao_snd {s : DB} {cid : Nat} {conta : Conta}
    (tipo : TipoTransacao) (valor : ℚ) (d : Option String) (sa sp : ℚ)
    (h : dictFind s.contas cid = some conta) :
    (commitTransacao s cid tipo valor d sa sp).2 =
      { s with
        contas := dictUpdate s.contas cid fun c => { c with saldo := round2 sp }
        transacoes :=
          (s.transacao_id_counter, (commitTransacao s cid tipo valor d sa sp).1) ::
            s.transacoes
        transacao_id_counter := s.transacao_id_counter + 1
        conta_id_to_transacoes :=
          dictUpdate s.conta_id_to_transacoes cid
            fun l => l ++ [s.transacao_id_counter] } := by
  show atualizar_saldo _ cid sp = _
  rw [atualizar_saldo]
  split
  · rfl
  · next hguard =>
    exact absurd (show (dictFind s.contas cid).isSome = true by rw [h]; rfl) hguard

theorem commit_contas {s : DB} {cid : Nat} {conta : Conta} (tipo : TipoTransacao)
    (valor : ℚ) (d : Option String) (sa sp : ℚ) (h : dictFind s.contas cid = some conta) :
    (commitTransacao s cid tipo valor d sa sp).2.contas =
      dictUpdate s.contas cid fun c => { c with saldo := round2 sp } := by
  rw [commitTransacao_snd tipo valor d sa sp h]

theorem commit_transacoes {s : DB} {cid : Nat} {conta : Conta} (tipo : TipoTransacao)
    (valor : ℚ) (d : Option String) (sa sp : ℚ) (h : dictFind s.contas cid = some conta) :
    (commitTransacao s cid tipo valor d sa sp).2.transacoes =
      (s.transacao_id_counter, (commitTransacao s cid tipo valor d sa sp).1) ::
        s.transacoes := by
  rw [commitTransacao_snd tipo valor d sa sp h]

theorem commit_tid_counter {s : DB} {cid : Nat} {conta : Conta} (tipo : TipoTransacao)
    (valor : ℚ) (d : Option String) (sa sp : ℚ) (h : dictFind s.contas cid = some conta) :
    (commitTransacao s cid tipo valor d sa sp).2.transacao_id_counter =
      s.transacao_id_counter + 1 := by
  rw [commitTransacao_snd tipo valor d sa sp h]

theorem commit_idx {s : DB} {cid : Nat} {conta : Conta} (tipo : TipoTransacao)
    (valor : ℚ) (d : Option String) (sa sp : ℚ) (h : dictFind s.contas cid = some conta) :
    (commitTransacao s cid tipo valor d sa sp).2.conta_id_to_transacoes =
      dictUpdate s.conta_id_to_transacoes cid
        fun l => l ++ [s.transacao_id_counter] := by
  rw [commitTransacao_snd tipo valor d sa sp h]

theorem commit_conta_id_counter {s : DB} {cid : Nat} {conta : Conta} (tipo : TipoTransacao)
    (valor : ℚ) (d : Option String) (sa sp : ℚ) (h : dictFind s.contas cid = some conta) :
    (commitTransacao s cid tipo valor d sa sp).2.conta_id_counter = s.conta_id_counter := by
  rw [commitTransacao_snd tipo valor d sa sp h]

/- ------------------------------------------------------------------ -/
/- Invariant preservation                                              -/
/- ------------------------------------------------------------------ -/

theorem inv_commit {s : DB} (hs : Inv s) {cid : Nat} {conta : Conta}
    (hfind : dictFind s.contas cid = some conta) (tipo : TipoTransacao) (v : ℚ)
    (d : Option String) (sp : ℚ) :
    Inv (commitTransacao s cid tipo v d conta.saldo sp).2 := by
  have hmemconta : (cid, conta) ∈ s.contas := dictFind_mem hfind
  obtain ⟨l0, hl0⟩ : ∃ l0, dictFind s.conta_id_to_transacoes cid = some l0 :=
    Option.isSome_iff_exists.mp (hs.contaHasIdx _ hmemconta)
  have hmemidx : (cid, l0) ∈ s.conta_id_to_transacoes := dictFind_mem hl0
  have hl0fresh : ∀ tid ∈ l0, tid < s.transacao_id_counter := hs.idxTidFresh _ hmemidx
  have hcontas := @commit_contas s cid conta tipo v d conta.saldo sp hfind
  have htx := @commit_transacoes s cid conta tipo v d conta.saldo sp hfind
  have hctr := @commit_tid_counter s cid conta tipo v d conta.saldo sp hfind
  have hidx := @commit_idx s cid conta tipo v d conta.saldo sp hfind
  have hcctr := @commit_conta_id_counter s cid conta tipo v d conta.saldo sp hfind
  have hfst := commitTransacao_fst s cid tipo v d conta.saldo sp
  have hTid : (commitTransacao s cid tipo v d conta.saldo sp).1.id =
      s.transacao_id_counter := by rw [hfst]
  have hTcid : (commitTransacao s cid tipo v d conta.saldo sp).1.conta_id = cid := by
    rw [hfst]
  have hTant : (commitTransacao s cid tipo v d conta.saldo sp).1.saldo_anterior =
      round2 conta.saldo := by rw [hfst]
  have hTpost : (commitTransacao s cid tipo v d conta.saldo sp).1.saldo_posterior =
      round2 sp := by rw [hfst]
  -- lookups of old transaction ids are unchanged by consing the new record
  have hfindtx : ∀ tid < s.transacao_id_counter,
      dictFind (commitTransacao s cid tipo v d conta.saldo sp).2.transacoes tid =
        dictFind s.transacoes tid := by
    intro tid hlt
    rw [htx, dictFind_cons, if_neg (by omega)]
  have hfindtxself :
      dictFind (commitTransacao s cid tipo v d conta.saldo sp).2.transacoes
          s.transacao_id_counter =
        some (commitTransacao s cid tipo v d conta.saldo sp).1 := by
    rw [htx, dictFind_cons, if_pos rfl]
  -- the per-account transaction lists: unchanged off `cid`, appended at `cid`
  have hTxListNe : ∀ a, a ≠ cid →
      obter_transacoes_por_conta (commitTransacao s cid tipo v d conta.saldo sp).2 a =
        obter_transacoes_por_conta s a := by
    intro a hane
    rw [obter_transacoes_def, obter_transacoes_def, hidx, dictFind_dictUpdate_ne _ _ hane]
    cases hfa : dictFind s.conta_id_to_transacoes a with
    | none => rfl
    | some la =>
      have hlafresh := hs.idxTidFresh _ (dictFind_mem hfa)
      simp only [Option.getD_some]
      exact filterMap_ext_mem fun tid htid => hfindtx tid (hlafresh tid htid)
  have hTxListEq :
      obter_transacoes_por_conta (commitTransacao s cid tipo v d conta.saldo sp).2 cid =
        obter_transacoes_por_conta s cid ++
          [(commitTransacao s cid tipo v d conta.saldo sp).1] := by
    rw [obter_transacoes_def, obter_transacoes_def, hidx, dictFind_dictUpdate_self, hl0]
    simp only [Option.map_some', Option.getD_some]
    rw [List.filterMap_append]
    congr 1
    · exact filterMap_ext_mem fun tid htid => hfindtx tid (hl0fresh tid htid)
    · rw [List.filterMap_cons, hfindtxself]
      rfl
  refine
    { grid := ?_, contaFresh := ?_, idxKeyFresh := ?_, contaHasIdx := ?_,
      idxHasConta := ?_, tidFresh := ?_, idxTidFresh := ?_, idxSorted := ?_,
      idxResolve := ?_, txIndexed := ?_, chain := ?_ }
  · -- grid
    intro p hp
    rw [hcontas] at hp
    obtain ⟨q, hq, hkey, hcase⟩ := mem_dictUpdate hp
    rcases hcase with ⟨_, hqe⟩ | ⟨_, hqe⟩
    · rw [hqe]
      exact hs.grid q hq
    · rw [hqe]
      exact round2_round2 sp
  · -- contaFresh
    intro p hp
    rw [hcontas] at hp
    rw [hcctr]
    obtain ⟨q, hq, hkey, _⟩ := mem_dictUpdate hp
    rw [hkey]
    exact hs.contaFresh q hq
  · -- idxKeyFresh
    intro q hq
    rw [hidx] at hq
    rw [hcctr]
    obtain ⟨q0, hq0, hkey, _⟩ := mem_dictUpdate hq
    rw [hkey]
    exact hs.idxKeyFresh q0 hq0
  · -- contaHasIdx
    intro p hp
    rw [hcontas] at hp
    rw [hidx]
    obtain ⟨q, hq, hkey, _⟩ := mem_dictUpdate hp
    rw [hkey, dictFind_dictUpdate_isSome]
    exact hs.contaHasIdx q hq
  · -- idxHasConta
    intro q hq
    rw [hidx] at hq
    rw [hcontas]
    obtain ⟨q0, hq0, hkey, _⟩ := mem_dictUpdate hq
    rw [hkey, dictFind_dictUpdate_isSome]
    exact hs.idxHasConta q0 hq0
  · -- tidFresh
    intro r hr
    rw [htx] at hr
    rw [hctr]
    rcases List.mem_cons.1 hr with rfl | hr
    · omega
    · have := hs.tidFresh r hr
      omega
  · -- idxTidFresh
    intro q hq tid htid
    rw [hidx] at hq
    rw [hctr]
    obtain ⟨q0, hq0, hkey, hcase⟩ := mem_dictUpdate hq
    rcases hcase with ⟨_, hqe⟩ | ⟨_, hqe⟩
    · rw [hqe] at htid
      have := hs.idxTidFresh q0 hq0 tid htid
      omega
    · rw [hqe] at htid
      rcases List.mem_append.1 htid with htid2 | htid2
      · have := hs.idxTidFresh q0 hq0 tid htid2
        omega
      · have : tid = s.transacao_id_counter := by simpa using htid2
        omega
  · -- idxSorted
    intro q hq
    rw [hidx] at hq
    obtain ⟨q0, hq0, hkey, hcase⟩ := mem_dictUpdate hq
    rcases hcase with ⟨_, hqe⟩ | ⟨_, hqe⟩
    · rw [hqe]
      exact hs.idxSorted q0 hq0
    · rw [hqe]
      show List.Pairwise (· < ·) (q0.2 ++ [s.transacao_id_counter])
      refine List.pairwise_append.2 ⟨hs.idxSorted q0 hq0, List.pairwise_singleton _ _, ?_⟩
      intro a ha b hb
      have hb' : b = s.transacao_id_counter := by simpa using hb
      have := hs.idxTidFresh q0 hq0 a ha
      omega
  · -- idxResolve
    intro q hq tid htid
    rw [hidx] at hq
    obtain ⟨q0, hq0, hkey, hcase⟩ := mem_dictUpdate hq
    rcases hcase with ⟨_, hqe⟩ | ⟨hq0cid, hqe⟩
    · rw [hqe] at htid ⊢
      obtain ⟨t', ht', htcid', htid'⟩ := hs.idxResolve q0 hq0 tid htid
      refine ⟨t', ?_, htcid', htid'⟩
      rw [hfindtx tid (hs.idxTidFresh q0 hq0 tid htid), ht']
    · rw [hqe] at htid ⊢
      rcases List.mem_append.1 htid with htid2 | htid2
      · obtain ⟨t', ht', htcid', htid'⟩ := hs.idxResolve q0 hq0 tid htid2
        refine ⟨t', ?_, htcid', htid'⟩
        rw [hfindtx tid (hs.idxTidFresh q0 hq0 tid htid2), ht']
      · have htide : tid = s.transacao_id_counter := by simpa using htid2
        subst htide
        refine ⟨_, hfindtxself, ?_, hTid⟩
        show (commitTransacao s cid tipo v d conta.saldo sp).1.conta_id = q0.1
        rw [hTcid, hq0cid]
  · -- txIndexed
    intro tid t' hfound
    rw [htx, dictFind_cons] at hfound
    rw [hidx]
    split at hfound
    · next heq =>
      obtain rfl := Option.some.inj hfound
      subst heq
      rw [hTcid, dictFind_dictUpdate_self, hl0]
      exact ⟨l0 ++ [s.transacao_id_counter], rfl, by simp⟩
    · obtain ⟨l, hfl, hmem⟩ := hs.txIndexed tid t' hfound
      by_cases hcidt : t'.conta_id = cid
      · rw [hcidt] at hfl
        rw [hcidt, dictFind_dictUpdate_self, hfl]
        exact ⟨l ++ [s.transacao_id_counter], rfl, List.mem_append_left _ hmem⟩
      · rw [dictFind_dictUpdate_ne _ _ hcidt]
        exact ⟨l, hfl, hmem⟩
  · -- chain
    intro p hp
    rw [hcontas] at hp
    obtain ⟨q, hq, hkey, hcase⟩ := mem_dictUpdate hp
    rcases hcase with ⟨hne, hqe⟩ | ⟨heq, hqe⟩
    · rw [hqe, hTxListNe q.1 hne]
      exact hs.chain q hq
    · have hchainconta := hs.chain (cid, conta) hmemconta
      rw [hqe]
      show ChainedFrom 0
        (obter_transacoes_por_conta (commitTransacao s cid tipo v d conta.saldo sp).2 q.1)
        (round2 sp)
      rw [heq, hTxListEq]
      refine chainedFrom_append hchainconta ?_ hTpost
      rw [hTant]
      exact hs.grid (cid, conta) hmemconta

theorem inv_init : Inv initDB :=
  { grid := fun p hp => absurd hp (List.not_mem_nil p)
    contaFresh := fun p hp => absurd hp (List.not_mem_nil p)
    idxKeyFresh := fun q hq => absurd hq (List.not_mem_nil q)
    contaHasIdx := fun p hp => absurd hp (List.not_mem_nil p)
    idxHasConta := fun q hq => absurd hq (List.not_mem_nil q)
    tidFresh := fun r hr => absurd hr (List.not_mem_nil r)
    idxTidFresh := fun q hq => absurd hq (List.not_mem_nil q)
    idxSorted := fun q hq => absurd hq (List.not_mem_nil q)
    idxResolve := fun q hq => absurd hq (List.not_mem_nil q)
    txIndexed := fun tid t h => by simp [dictFind] at h
    chain := fun p hp => absurd hp (List.not_mem_nil p) }

theorem inv_openAccount_ok {s : DB} (hs : Inv s) (uid : Nat) (tc : TipoConta)
    (digito : Nat) :
    Inv { s with
      contas := (s.conta_id_counter,
        { id := s.conta_id_counter
          numero_conta := gerar_numero_conta (s.conta_id_counter + 1) digito
          tipo_conta := tc
          saldo := 0
          usuario_id := uid }) :: s.contas
      conta_id_counter := s.conta_id_counter + 1
      usuario_id_to_conta_id := (uid, s.conta_id_counter) :: s.usuario_id_to_conta_id
      conta_id_to_transacoes :=
        (s.conta_id_counter, ([] : List Nat)) :: s.conta_id_to_transacoes } := by
  refine
    { grid := ?_, contaFresh := ?_, idxKeyFresh := ?_, contaHasIdx := ?_,
      idxHasConta := ?_, tidFresh := ?_, idxTidFresh := ?_, idxSorted := ?_,
      idxResolve := ?_, txIndexed := ?_, chain := ?_ }
  · intro p hp
    rcases List.mem_cons.1 hp with hpe | hp2
    · rw [hpe]
      exact round2_zero
    · exact hs.grid p hp2
  · intro p hp
    rcases List.mem_cons.1 hp with hpe | hp2
    · rw [hpe]
      exact Nat.lt_succ_self _
    · have := hs.contaFresh p hp2
      show p.1 < s.conta_id_counter + 1
      omega
  · intro q hq
    rcases List.mem_cons.1 hq with hqe | hq2
    · rw [hqe]
      exact Nat.lt_succ_self _
    · have := hs.idxKeyFresh q hq2
      show q.1 < s.conta_id_counter + 1
      omega
  · intro p hp
    rcases List.mem_cons.1 hp with hpe | hp2
    · rw [hpe]
      show (dictFind ((s.conta_id_counter, ([] : List Nat)) ::
        s.conta_id_to_transacoes) s.conta_id_counter).isSome = true
      rw [dictFind_cons, if_pos rfl]
      rfl
    · have hlt := hs.contaFresh p hp2
      show (dictFind ((s.conta_id_counter, ([] : List Nat)) ::
        s.conta_id_to_transacoes) p.1).isSome = true
      rw [dictFind_cons, if_neg (by omega)]
      exact hs.contaHasIdx p hp2
  · intro q hq
    rcases List.mem_cons.1 hq with hqe | hq2
    · rw [hqe]
      show (dictFind ((s.conta_id_counter, _) :: s.contas) s.conta_id_counter).isSome = true
      rw [dictFind_cons, if_pos rfl]
      rfl
    · have hlt := hs.idxKeyFresh q hq2
      show (dictFind ((s.conta_id_counter, _) :: s.contas) q.1).isSome = true
      rw [dictFind_cons, if_neg (by omega)]
      exact hs.idxHasConta q hq2
  · exact hs.tidFresh
  · intro q hq tid htid
    rcases List.mem_cons.1 hq with hqe | hq2
    · rw [hqe] at htid
      simp at htid
    · exact hs.idxTidFresh q hq2 tid htid
  · intro q hq
    rcases List.mem_cons.1 hq with hqe | hq2
    · rw [hqe]
      exact List.Pairwise.nil
    · exact hs.idxSorted q hq2
  · intro q hq tid htid
    rcases List.mem_cons.1 hq with hqe | hq2
    · rw [hqe] at htid
      simp at htid
    · exact hs.idxResolve q hq2 tid htid
  · intro tid t h
    obtain ⟨l, hfl, hmem⟩ := hs.txIndexed tid t h
    have hlt := hs.idxKeyFresh _ (dictFind_mem hfl)
    refine ⟨l, ?_, hmem⟩
    show dictFind ((s.conta_id_counter, ([] : List Nat)) ::
      s.conta_id_to_transacoes) t.conta_id = some l
    rw [dictFind_cons, if_neg (by omega)]
    exact hfl
  · intro p hp
    rcases List.mem_cons.1 hp with hpe | hp2
    · rw [hpe]
      show ChainedFrom 0 (obter_transacoes_por_conta _ s.conta_id_counter) (0 : ℚ)
      rw [obter_transacoes_def]
      show ChainedFrom 0 (((dictFind ((s.conta_id_counter, ([] : List Nat)) ::
        s.conta_id_to_transacoes) s.conta_id_counter).getD []).filterMap _) (0 : ℚ)
      rw [dictFind_cons, if_pos rfl]
      exact rfl
    · have hlt := hs.contaFresh p hp2
      have hobs : obter_transacoes_por_conta
          { s with
            contas := (s.conta_id_counter,
              { id := s.conta_id_counter
                numero_conta := gerar_numero_conta (s.conta_id_counter + 1) digito
                tipo_conta := tc
                saldo := 0
                usuario_id := uid }) :: s.contas
            conta_id_counter := s.conta_id_counter + 1
            usuario_id_to_conta_id := (uid, s.conta_id_counter) :: s.usuario_id_to_conta_id
            conta_id_to_transacoes :=
              (s.conta_id_counter, ([] : List Nat)) :: s.conta_id_to_transacoes } p.1 =
          obter_transacoes_por_conta s p.1 := by
        rw [obter_transacoes_def, obter_transacoes_def]
        show (((dictFind ((s.conta_id_counter, ([] : List Nat)) ::
          s.conta_id_to_transacoes) p.1).getD []).filterMap fun tid =>
            dictFind s.transacoes tid) = _
        rw [dictFind_cons, if_neg (by omega)]
      rw [hobs]
      exact hs.chain p hp2

theorem inv_step {s : DB} (hs : Inv s) (op : Op) : Inv (step s op) := by
  cases op with
  | register nome cpf senha_hash =>
    show Inv (match criar_usuario s nome cpf senha_hash with
      | Except.ok (_, s') => s'
      | Except.error _ => s)
    rw [criar_usuario]
    by_cases hc : (dictFind s.cpf_to_usuario_id cpf).isSome = true
    · rw [if_pos hc]
      exact hs
    · rw [if_neg hc]
      exact
        { grid := hs.grid, contaFresh := hs.contaFresh, idxKeyFresh := hs.idxKeyFresh,
          contaHasIdx := hs.contaHasIdx, idxHasConta := hs.idxHasConta,
          tidFresh := hs.tidFresh, idxTidFresh := hs.idxTidFresh,
          idxSorted := hs.idxSorted, idxResolve := hs.idxResolve,
          txIndexed := hs.txIndexed, chain := hs.chain }
  | openAccount uid tc digito =>
    show Inv (match criar_conta s uid tc digito with
      | Except.ok (_, s') => s'
      | Except.error _ => s)
    rw [criar_conta]
    by_cases h1 : (dictFind s.usuarios uid).isSome = false
    · rw [if_pos h1]
      exact hs
    · rw [if_neg h1]
      by_cases h2 : (dictFind s.usuario_id_to_conta_id uid).isSome = true
      · rw [if_pos h2]
        exact hs
      · rw [if_neg h2]
        exact inv_openAccount_ok hs uid tc digito
  | applyTransaction cid tipo v de =>
    show Inv (match criar_transacao s cid tipo v de with
      | Except.ok (_, s') => s'
      | Except.error _ => s)
    cases hfind : dictFind s.contas cid with
    | none =>
      rw [criar_transacao_not_found hfind]
      exact hs
    | some conta =>
      cases tipo with
      | saque =>
        by_cases hlt : conta.saldo < v
        · rw [criar_transacao_saque_insuficiente hfind hlt]
          exact hs
        · rw [criar_transacao_saque_ok hfind hlt]
          exact inv_commit hs hfind TipoTransacao.saque v de (conta.saldo - v)
      | deposito =>
        rw [criar_transacao_deposito_ok hfind]
        exact inv_commit hs hfind TipoTransacao.deposito v de (conta.saldo + v)

theorem inv_foldl : ∀ (ops : List Op) (s : DB), Inv s → Inv (ops.foldl step s)
  | [], _, hs => hs
  | op :: ops, s, hs => inv_foldl ops (step s op) (inv_step hs op)

/-- Every state reached by a sequence of core operations satisfies the
`DatabaseSimulator` invariant. -/
theorem inv_exec (ops : List Op) : Inv (exec ops) :=
  inv_foldl ops initDB inv_init

theorem nonneg_commit {s : DB} (h : SaldosNonneg s) {cid : Nat} {conta : Conta}
    (hfind : dictFind s.contas cid = some conta) (tipo : TipoTransacao) (v : ℚ)
    (d : Option String) {sp : ℚ} (hsp : 0 ≤ sp) :
    SaldosNonneg (commitTransacao s cid tipo v d conta.saldo sp).2 := by
  intro p hp
  rw [@commit_contas s cid conta tipo v d conta.saldo sp hfind] at hp
  obtain ⟨q, hq, _, hcase⟩ := mem_dictUpdate hp
  rcases hcase with ⟨_, hqe⟩ | ⟨_, hqe⟩
  · rw [hqe]
    exact h q hq
  · rw [hqe]
    exact round2_nonneg hsp

theorem nonneg_step {s : DB} (h : SaldosNonneg s) {op : Op} (hop : PositiveAmount op) :
    SaldosNonneg (step s op) := by
  cases op with
  | register nome cpf senha_hash =>
    show SaldosNonneg (match criar_usuario s nome cpf senha_hash with
      | Except.ok (_, s') => s'
      | Except.error _ => s)
    rw [criar_usuario]
    by_cases hc : (dictFind s.cpf_to_usuario_id cpf).isSome = true
    · rw [if_pos hc]
      exact h
    · rw [if_neg hc]
      exact h
  | openAccount uid tc digito =>
    show SaldosNonneg (match criar_conta s uid tc digito with
      | Except.ok (_, s') => s'
      | Except.error _ => s)
    rw [criar_conta]
    by_cases h1 : (dictFind s.usuarios uid).isSome = false
    · rw [if_pos h1]
      exact h
    · rw [if_neg h1]
      by_cases h2 : (dictFind s.usuario_id_to_conta_id uid).isSome = true
      · rw [if_pos h2]
        exact h
      · rw [if_neg h2]
        intro p hp
        rcases List.mem_cons.1 hp with hpe | hp2
        · rw [hpe]
        · exact h p hp2
  | applyTransaction cid tipo v de =>
    show SaldosNonneg (match criar_transacao s cid tipo v de with
      | Except.ok (_, s') => s'
      | Except.error _ => s)
    cases hfind : dictFind s.contas cid with
    | none =>
      rw [criar_transacao_not_found hfind]
      exact h
    | some conta =>
      have hsaldo : 0 ≤ conta.saldo := h (cid, conta) (dictFind_mem hfind)
      have hv : 0 < v := hop
      cases tipo with
      | saque =>
        by_cases hlt : conta.saldo < v
        · rw [criar_transacao_saque_insuficiente hfind hlt]
          exact h
        · rw [criar_transacao_saque_ok hfind hlt]
          have hge := not_lt.1 hlt
          exact nonneg_commit h hfind TipoTransacao.saque v de (by linarith)
      | deposito =>
        rw [criar_transacao_deposito_ok hfind]
        exact nonneg_commit h hfind TipoTransacao.deposito v de (by linarith)

theorem nonneg_init : SaldosNonneg initDB :=
  fun p hp => absurd hp (List.not_mem_nil p)

theorem nonneg_foldl : ∀ (ops : List Op), (∀ op ∈ ops, PositiveAmount op) →
    ∀ s : DB, SaldosNonneg s → SaldosNonneg (ops.foldl step s)
  | [], _, _, hs => hs
  | op :: ops, hpos, s, hs =>
    nonneg_foldl ops (fun o ho => hpos o (List.mem_cons_of_mem _ ho)) (step s op)
      (nonneg_step hs (hpos op (List.mem_cons_self _ _)))

/-- With only positive transaction amounts, all reachable balances are ≥ 0. -/
theorem nonneg_exec (ops : List Op) (hpos : ∀ op ∈ ops, PositiveAmount op) :
    SaldosNonneg (exec ops) :=
  nonneg_foldl ops hpos initDB nonneg_init

theorem commit_ok_spec {s : DB} {cid : Nat} {conta : Conta}
    (hfind : dictFind s.contas cid = some conta) (tipo : TipoTransacao) (v : ℚ)
    (d : Option String) (sp : ℚ) :
    (commitTransacao s cid tipo v d conta.saldo sp).1.saldo_anterior =
        round2 conta.saldo ∧
    (commitTransacao s cid tipo v d conta.saldo sp).1.saldo_posterior = round2 sp ∧
    (commitTransacao s cid tipo v d conta.saldo sp).1.valor = round2 v ∧
    obter_conta_por_id (commitTransacao s cid tipo v d conta.saldo sp).2 cid =
      some { conta with saldo := round2 sp } ∧
    dictFind (commitTransacao s cid tipo v d conta.saldo sp).2.transacoes
        (commitTransacao s cid tipo v d conta.saldo sp).1.id =
      some (commitTransacao s cid tipo v d conta.saldo sp).1 := by
  refine ⟨rfl, rfl, rfl, ?_, ?_⟩
  · show dictFind (commitTransacao s cid tipo v d conta.saldo sp).2.contas cid = _
    rw [@commit_contas s cid conta tipo v d conta.saldo sp hfind,
      dictFind_dictUpdate_self, hfind]
    rfl
  · rw [@commit_transacoes s cid conta tipo v d conta.saldo sp hfind]
    show dictFind _ s.transacao_id_counter = _
    rw [dictFind_cons, if_pos rfl]

theorem filter_sum_somaPorTipo (tp : TipoTransacao) (ts : List Transacao) :
    ((ts.filter fun t => t.tipo == tp).map Transacao.valor).sum = somaPorTipo tp ts := by
  induction ts with
  | nil => simp [somaPorTipo]
  | cons t ts ih =>
    by_cases h : t.tipo = tp
    · simp only [somaPorTipo, List.filter_cons, beq_iff_eq, if_pos h, List.map_cons,
        List.sum_cons] at *
      rw [ih]
    · simp only [somaPorTipo, List.filter_cons, beq_iff_eq, if_neg h, List.map_cons,
        List.sum_cons] at *
      rw [ih, zero_add]

/- ------------------------------------------------------------------ -/
/- The claims                                                          -/
/- ------------------------------------------------------------------ -/

/-- C2: a withdrawal whose amount exceeds the account's balance-before fails
with `InsufficientFunds` (`ValueError("Saldo insuficiente...")`), and the
whole state — balance, transaction log, transaction id counter — is
unchanged (`step` returns the state as it was). -/
theorem C2_saque_insuficiente_sem_mutacao (s : DB) (cid : Nat) (conta : Conta) (v : ℚ)
    (d : Option String) (hfind : obter_conta_por_id s cid = some conta)
    (hlt : conta.saldo < v) :
    criar_transacao s cid TipoTransacao.saque v d =
      Except.error DBError.saldoInsuficiente ∧
    step s (Op.applyTransaction cid TipoTransacao.saque v d) = s := by
  have hfind' : dictFind s.contas cid = some conta := hfind
  constructor
  · exact criar_transacao_saque_insuficiente hfind' hlt
  · show (match criar_transacao s cid TipoTransacao.saque v d with
      | Except.ok (_, s') => s'
      | Except.error _ => s) = s
    rw [criar_transacao_saque_insuficiente hfind' hlt]

/-- C2 witness: withdrawing 50 from the freshly opened account with balance 0
is rejected with `InsufficientFunds` and the state is untouched. -/
theorem C2_witness :
    criar_transacao sBase 1 TipoTransacao.saque 50 none =
      Except.error DBError.saldoInsuficiente ∧
    step sBase (Op.applyTransaction 1 TipoTransacao.saque 50 none) = sBase :=
  C2_saque_insuficiente_sem_mutacao sBase 1 contaBase 50 none
    (by with_unfolding_all decide) (by with_unfolding_all decide)

/-- C6: `criar_usuario` with an already registered CPF fails with
`DuplicateIdentity` and mutates nothing; with a fresh CPF it allocates the
next sequential user id, bumps the counter, and stores the record under both
the id and the CPF index. -/
theorem C6_registro_cpf_unico (s : DB) (nome cpf senha_hash : String) :
    ((dictFind s.cpf_to_usuario_id cpf).isSome = true →
      criar_usuario s nome cpf senha_hash = Except.error DBError.cpfJaCadastrado ∧
      step s (Op.register nome cpf senha_hash) = s) ∧
    ((dictFind s.cpf_to_usuario_id cpf).isSome = false →
      ∃ u s', criar_usuario s nome cpf senha_hash = Except.ok (u, s') ∧
        u.id = s.usuario_id_counter ∧ u.nome = nome ∧ u.cpf = cpf ∧
        u.senha_hash = senha_hash ∧
        s'.usuario_id_counter = s.usuario_id_counter + 1 ∧
        dictFind s'.usuarios u.id = some u ∧
        dictFind s'.cpf_to_usuario_id cpf = some u.id) := by
  constructor
  · intro hc
    constructor
    · rw [criar_usuario, if_pos hc]
    · show (match criar_usuario s nome cpf senha_hash with
        | Except.ok (_, s') => s'
        | Except.error _ => s) = s
      rw [criar_usuario, if_pos hc]
  · intro hc
    rw [criar_usuario, if_neg (by rw [hc]; exact Bool.false_ne_true)]
    refine ⟨_, _, rfl, rfl, rfl, rfl, rfl, rfl, ?_, ?_⟩
    · show dictFind ((s.usuario_id_counter, _) :: s.usuarios) s.usuario_id_counter = _
      rw [dictFind_cons, if_pos rfl]
    · show dictFind ((cpf, s.usuario_id_counter) :: s.cpf_to_usuario_id) cpf = _
      rw [dictFind_cons, if_pos rfl]

/-- C6 witness: registering a second user with the CPF already used by
`opsBase` fails with `DuplicateIdentity` and leaves the store unchanged. -/
theorem C6_witness :
    criar_usuario sBase "Maria" "12345678900" "outra-senha" =
      Except.error DBError.cpfJaCadastrado ∧
    step sBase (Op.register "Maria" "12345678900" "outra-senha") = sBase :=
  (C6_registro_cpf_unico sBase "Maria" "12345678900" "outra-senha").1
    (by with_unfolding_all decide)

/-- C7: `criar_conta` fails with `UnknownUser` when the user id is absent and
with `AccountAlreadyExists` when the user already owns an account, mutating
nothing in either case; on success the new account starts with balance 0.00
and is recorded under the user. -/
theorem C7_uma_conta_por_usuario (s : DB) (uid : Nat) (tc : TipoConta) (digito : Nat) :
    ((dictFind s.usuarios uid).isSome = false →
      criar_conta s uid tc digito = Except.error DBError.usuarioNaoEncontrado ∧
      step s (Op.openAccount uid tc digito) = s) ∧
    ((dictFind s.usuarios uid).isSome = true →
      (dictFind s.usuario_id_to_conta_id uid).isSome = true →
      criar_conta s uid tc digito = Except.error DBError.usuarioJaPossuiConta ∧
      step s (Op.openAccount uid tc digito) = s) ∧
    ((dictFind s.usuarios uid).isSome = true →
      (dictFind s.usuario_id_to_conta_id uid).isSome = false →
      ∃ c s', criar_conta s uid tc digito = Except.ok (c, s') ∧
        c.saldo = 0 ∧ c.id = s.conta_id_counter ∧ c.usuario_id = uid ∧
        dictFind s'.contas c.id = some c ∧
        dictFind s'.usuario_id_to_conta_id uid = some c.id) := by
  refine ⟨?_, ?_, ?_⟩
  · intro h1
    constructor
    · rw [criar_conta, if_pos h1]
    · show (match criar_conta s uid tc digito with
        | Except.ok (_, s') => s'
        | Except.error _ => s) = s
      rw [criar_conta, if_pos h1]
  · intro h1 h2
    constructor
    · rw [criar_conta, if_neg (by simp [h1]), if_pos h2]
    · show (match criar_conta s uid tc digito with
        | Except.ok (_, s') => s'
        | Except.error _ => s) = s
      rw [criar_conta, if_neg (by simp [h1]), if_pos h2]
  · intro h1 h2
    rw [criar_conta, if_neg (by simp [h1]), if_neg (by simp [h2])]
    refine ⟨_, _, rfl, rfl, rfl, rfl, ?_, ?_⟩
    · show dictFind ((s.conta_id_counter, _) :: s.contas) s.conta_id_counter = _
      rw [dictFind_cons, if_pos rfl]
    · show dictFind ((uid, s.conta_id_counter) :: s.usuario_id_to_conta_id) uid = _
      rw [dictFind_cons, if_pos rfl]

/-- C7 witness: opening a second account for user 1, who already owns account
1, fails with `AccountAlreadyExists` and the registry is unchanged. -/
theorem C7_witness :
    criar_conta sBase 1 TipoConta.poupanca 3 =
      Except.error DBError.usuarioJaPossuiConta ∧
    step sBase (Op.openAccount 1 TipoConta.poupanca 3) = sBase :=
  (C7_uma_conta_por_usuario sBase 1 TipoConta.poupanca 3).2.1
    (by with_unfolding_all decide) (by with_unfolding_all decide)

/-- C10: `atualizar_saldo` on an absent account id is a silent no-op (the
state is returned untouched, no error); on a present id it stores exactly the
new balance rounded to 2 decimals for that account, leaving its other fields,
every other account, and every other component of the state unchanged. -/
theorem C10_atualizar_saldo_spec (s : DB) (cid : Nat) (v : ℚ) :
    (dictFind s.contas cid = none → atualizar_saldo s cid v = s) ∧
    (∀ conta, dictFind s.contas cid = some conta →
      dictFind (atualizar_saldo s cid v).contas cid =
        some { conta with saldo := round2 v } ∧
      (∀ cid2, cid2 ≠ cid →
        dictFind (atualizar_saldo s cid v).contas cid2 = dictFind s.contas cid2) ∧
      (atualizar_saldo s cid v).usuarios = s.usuarios ∧
      (atualizar_saldo s cid v).transacoes = s.transacoes ∧
      (atualizar_saldo s cid v).conta_id_to_transacoes = s.conta_id_to_transacoes ∧
      (atualizar_saldo s cid v).usuario_id_counter = s.usuario_id_counter ∧
      (atualizar_saldo s cid v).conta_id_counter = s.conta_id_counter ∧
      (atualizar_saldo s cid v).transacao_id_counter = s.transacao_id_counter ∧
      (atualizar_saldo s cid v).cpf_to_usuario_id = s.cpf_to_usuario_id ∧
      (atualizar_saldo s cid v).usuario_id_to_conta_id = s.usuario_id_to_conta_id) := by
  constructor
  · intro hnone
    rw [atualizar_saldo, if_neg (by rw [hnone]; exact Bool.false_ne_true)]
  · intro conta hfind
    rw [atualizar_saldo, if_pos (by rw [hfind]; rfl)]
    refine ⟨?_, ?_, rfl, rfl, rfl, rfl, rfl, rfl, rfl, rfl⟩
    · show dictFind (dictUpdate s.contas cid fun c => { c with saldo := round2 v }) cid =
        some { conta with saldo := round2 v }
      rw [dictFind_dictUpdate_self, hfind]
      rfl
    · intro cid2 hne
      show dictFind (dictUpdate s.contas cid fun c => { c with saldo := round2 v }) cid2 =
        dictFind s.contas cid2
      rw [dictFind_dictUpdate_ne _ _ hne]

/-- C10 witness: updating the balance of the absent account 99 changes
nothing, and updating account 1 stores the rounded new balance. -/
theorem C10_witness :
    atualizar_saldo sBase 99 5 = sBase :=
  (C10_atualizar_saldo_spec sBase 99 5).1 (by with_unfolding_all decide)

/-- C4 counterexample: the ledger engine (`criar_transacao`) does NOT
re-validate positivity.  Called directly with amount 0 on a valid account it
succeeds and appends a transaction (the claim says it must fail with
`InvalidAmount` and create no transaction even when the schema boundary is
bypassed). -/
theorem C4_counterexample :
    isOkE (criar_transacao sBase 1 TipoTransacao.deposito 0 none) = true ∧
    (step sBase (Op.applyTransaction 1 TipoTransacao.deposito 0 none)).transacoes.length
      = 1 ∧
    sBase.transacoes.length = 0 := by
  with_unfolding_all decide

/-- C4 amended: positivity of the amount is enforced only at the input-schema
boundary — `TransacaoBase.validar_valor_positivo` rejects amount ≤ 0 with
`InvalidAmount` (a `ValueError`) and returns the amount rounded to 2 decimals
otherwise — while the engine itself does not re-validate: called directly it
commits a transaction for any amount (subject only to the withdrawal balance
check). -/
theorem C4_valida_apenas_no_schema (v : ℚ) :
    (v ≤ 0 →
      validar_valor_positivo v =
        Except.error "O valor da transação deve ser positivo") ∧
    (0 < v → validar_valor_positivo v = Except.ok (round2 v)) ∧
    (∀ (s : DB) (cid : Nat) (conta : Conta) (tipo : TipoTransacao) (d : Option String),
      obter_conta_por_id s cid = some conta →
      (tipo = TipoTransacao.saque → ¬ conta.saldo < v) →
      isOkE (criar_transacao s cid tipo v d) = true) := by
  refine ⟨?_, ?_, ?_⟩
  · intro hv
    rw [validar_valor_positivo, if_pos hv]
  · intro hv
    rw [validar_valor_positivo, if_neg (not_le.2 hv)]
  · intro s cid conta tipo d hfind hsaque
    have hfind' : dictFind s.contas cid = some conta := hfind
    cases tipo with
    | saque =>
      rw [criar_transacao_saque_ok hfind' (hsaque rfl)]
      rfl
    | deposito =>
      rw [criar_transacao_deposito_ok hfind']
      rfl

/-- C4 witness: the schema validator rejects amount 0 with the
`InvalidAmount` error. -/
theorem C4_witness :
    validar_valor_positivo 0 =
      Except.error "O valor da transação deve ser positivo" :=
  (C4_valida_apenas_no_schema 0).1 (le_refl 0)

/-- C5: on success `criar_transacao` returns the committed transaction whose
balance-before is the account's balance immediately prior to the call (the
stored snapshot is `round2` of it, which is the identity on any balance the
system ever stores), whose balance-after is balance-before + amount for a
deposit and balance-before − amount for a withdrawal, rounded to 2 decimals,
and the account's current balance is updated to exactly that balance-after;
the transaction is persisted in the log under its id. -/
theorem C5_sucesso_saldos (s : DB) (cid : Nat) (conta : Conta) (tipo : TipoTransacao)
    (v : ℚ) (d : Option String) (hfind : obter_conta_por_id s cid = some conta)
    (hgrid : round2 conta.saldo = conta.saldo)
    (hok : tipo = TipoTransacao.saque → ¬ conta.saldo < v) :
    ∃ t s', criar_transacao s cid tipo v d = Except.ok (t, s') ∧
      t.saldo_anterior = conta.saldo ∧
      t.saldo_posterior =
        round2 (if tipo = TipoTransacao.saque then conta.saldo - v else conta.saldo + v) ∧
      t.valor = round2 v ∧
      obter_conta_por_id s' cid = some { conta with saldo := t.saldo_posterior } ∧
      dictFind s'.transacoes t.id = some t := by
  have hfind' : dictFind s.contas cid = some conta := hfind
  cases tipo with
  | saque =>
    obtain ⟨hant, hpost, hval, hconta, htx⟩ :=
      commit_ok_spec hfind' TipoTransacao.saque v d (conta.saldo - v)
    refine ⟨_, _, criar_transacao_saque_ok hfind' (hok rfl), ?_, ?_, hval, hconta, htx⟩
    · show round2 conta.saldo = conta.saldo
      exact hgrid
    · show round2 (conta.saldo - v) = round2 (if TipoTransacao.saque = TipoTransacao.saque
        then conta.saldo - v else conta.saldo + v)
      rw [if_pos rfl]
  | deposito =>
    obtain ⟨hant, hpost, hval, hconta, htx⟩ :=
      commit_ok_spec hfind' TipoTransacao.deposito v d (conta.saldo + v)
    refine ⟨_, _, criar_transacao_deposito_ok hfind', ?_, ?_, hval, hconta, htx⟩
    · show round2 conta.saldo = conta.saldo
      exact hgrid
    · show round2 (conta.saldo + v) = round2 (if TipoTransacao.deposito = TipoTransacao.saque
        then conta.saldo - v else conta.saldo + v)
      rw [if_neg (by simp)]

/-- C5 witness: depositing 100 into the fresh account with balance 0 commits
a transaction with balance-before 0, balance-after 100, and the account's
balance becomes 100. -/
theorem C5_witness :
    ∃ t s', criar_transacao sBase 1 TipoTransacao.deposito 100 (some "salario") =
        Except.ok (t, s') ∧
      t.saldo_anterior = contaBase.saldo ∧
      t.saldo_posterior = round2 (if TipoTransacao.deposito = TipoTransacao.saque then
        contaBase.saldo - 100 else contaBase.saldo + 100) ∧
      t.valor = round2 100 ∧
      obter_conta_por_id s' 1 = some { contaBase with saldo := t.saldo_posterior } ∧
      dictFind s'.transacoes t.id = some t :=
  C5_sucesso_saldos sBase 1 contaBase TipoTransacao.deposito 100 (some "salario")
    (by with_unfolding_all decide) (by with_unfolding_all decide)
    (fun h => absurd h (by simp))

/-- C9: `obter_estatisticas_conta` returns exactly the per-kind sums of the
amounts of the account's transactions (as listed by
`obter_transacoes_por_conta`), each rounded to 2 decimals, and their count;
it is a pure read — it takes the state and returns only a value, so no state
is mutated by construction. -/
theorem C9_estatisticas_somas (s : DB) (cid : Nat) :
    obter_estatisticas_conta s cid =
      { total_depositos :=
          round2 (somaPorTipo TipoTransacao.deposito (obter_transacoes_por_conta s cid))
        total_saques :=
          round2 (somaPorTipo TipoTransacao.saque (obter_transacoes_por_conta s cid))
        quantidade_transacoes := (obter_transacoes_por_conta s cid).length } := by
  rw [obter_estatisticas_conta]
  rw [filter_sum_somaPorTipo, filter_sum_somaPorTipo]

/-- C9 witness: on the two-transaction ledger (deposit 100, withdrawal 30)
the statistics are 100 deposited, 30 withdrawn, 2 transactions. -/
theorem C9_witness :
    obter_estatisticas_conta (exec opsLedger) 1 =
      { total_depositos := 100, total_saques := 30, quantidade_transacoes := 2 } := by
  rw [C9_estatisticas_somas]
  with_unfolding_all decide

/-- C1 counterexample: the claim is false for arbitrary core-operation
sequences, because the engine accepts non-positive amounts (see C4).  A
direct deposit of −5 on the fresh account succeeds (it does not fail with
`InsufficientFunds`) and drives the balance to −5 < 0. -/
theorem C1_counterexample :
    isOkE (criar_transacao sBase 1 TipoTransacao.deposito (-5) none) = true ∧
    ¬ ∀ p ∈ (exec opsNegDeposito).contas, 0 ≤ p.2.saldo := by
  with_unfolding_all decide

/-- C1 amended: for every sequence of core operations whose transaction
amounts are all positive (which is what the input-schema boundary guarantees
for every amount reaching the engine through the API), every account's
balance is ≥ 0 in the reached state, and a withdrawal that would drive a
balance negative (amount > balance) fails with `InsufficientFunds` and
mutates nothing. -/
theorem C1_saldo_nao_negativo (ops : List Op)
    (hpos : ∀ op ∈ ops, PositiveAmount op) :
    (∀ p ∈ (exec ops).contas, 0 ≤ p.2.saldo) ∧
    (∀ (cid : Nat) (conta : Conta) (v : ℚ) (d : Option String),
      obter_conta_por_id (exec ops) cid = some conta →
      conta.saldo < v →
      criar_transacao (exec ops) cid TipoTransacao.saque v d =
        Except.error DBError.saldoInsuficiente ∧
      step (exec ops) (Op.applyTransaction cid TipoTransacao.saque v d) = exec ops) := by
  refine ⟨nonneg_exec ops hpos, ?_⟩
  intro cid conta v d hfind hlt
  have hfind' : dictFind (exec ops).contas cid = some conta := hfind
  constructor
  · exact criar_transacao_saque_insuficiente hfind' hlt
  · show (match criar_transacao (exec ops) cid TipoTransacao.saque v d with
      | Except.ok (_, s') => s'
      | Except.error _ => exec ops) = exec ops
    rw [criar_transacao_saque_insuficiente hfind' hlt]

/-- C1 witness: on the positive-amount ledger (deposit 100, withdraw 30,
balance 70), withdrawing 500 fails with `InsufficientFunds` and the state is
unchanged. -/
theorem C1_witness :
    criar_transacao (exec opsLedger) 1 TipoTransacao.saque 500 none =
      Except.error DBError.saldoInsuficiente ∧
    step (exec opsLedger) (Op.applyTransaction 1 TipoTransacao.saque 500 none) =
      exec opsLedger :=
  (C1_saldo_nao_negativo opsLedger
    (by
      intro op hop
      simp only [opsLedger, opsBase, List.cons_append, List.nil_append, List.mem_cons,
        List.not_mem_nil, or_false] at hop
      rcases hop with rfl | rfl | rfl | rfl
      · trivial
      · trivial
      · show (0 : ℚ) < 100
        norm_num
      · show (0 : ℚ) < 30
        norm_num)).2 1 contaLedger 500 none
    (by with_unfolding_all decide) (by with_unfolding_all decide)

/-- C3: in every reachable state, each account's transaction list (as
returned by `obter_transacoes_por_conta`) chains — the first record's
balance-before is the initial balance 0.00, each record's balance-after is
the next record's balance-before, and folding the recorded balance-after
values from 0 reconstructs the account's current balance exactly; in
particular the last record's balance-after equals the current balance, and
an empty ledger means balance 0. -/
theorem C3_replay_reconstroi_saldo (ops : List Op) (cid : Nat) (conta : Conta)
    (hfind : obter_conta_por_id (exec ops) cid = some conta) :
    ChainedFrom 0 (obter_transacoes_por_conta (exec ops) cid) conta.saldo ∧
    (obter_transacoes_por_conta (exec ops) cid).foldl
      (fun _ t => t.saldo_posterior) 0 = conta.saldo ∧
    (∀ t, (obter_transacoes_por_conta (exec ops) cid).getLast? = some t →
      t.saldo_posterior = conta.saldo) ∧
    (obter_transacoes_por_conta (exec ops) cid = [] → conta.saldo = 0) := by
  have hchain := (inv_exec ops).chain (cid, conta) (dictFind_mem hfind)
  refine ⟨hchain, chainedFrom_foldl hchain,
    fun t ht => chainedFrom_getLast hchain ht, ?_⟩
  intro hnil
  rw [hnil] at hchain
  exact hchain

/-- C3 witness: after deposit 100 then withdrawal 30, the ledger of account 1
chains from 0 to the current balance 70. -/
theorem C3_witness :
    ChainedFrom 0 (obter_transacoes_por_conta (exec opsLedger) 1) contaLedger.saldo ∧
    (obter_transacoes_por_conta (exec opsLedger) 1).foldl
      (fun _ t => t.saldo_posterior) 0 = contaLedger.saldo ∧
    (∀ t, (obter_transacoes_por_conta (exec opsLedger) 1).getLast? = some t →
      t.saldo_posterior = contaLedger.saldo) ∧
    (obter_transacoes_por_conta (exec opsLedger) 1 = [] → contaLedger.saldo = 0) :=
  C3_replay_reconstroi_saldo opsLedger 1 contaLedger (by with_unfolding_all decide)

/-- C8: in every reachable state, `obter_transacoes_por_conta` returns exactly
the account's transactions — their ids are strictly increasing (creation
order), every returned record belongs to the account and is in the store,
every stored record of the account is returned — it returns the empty list
for an unknown account id and for an account with no transactions, and no
indexed id is dropped (the Python `self.transacoes[tid]` lookup never
fails). -/
theorem C8_lista_transacoes (ops : List Op) (cid : Nat) :
    List.Pairwise (· < ·)
      ((obter_transacoes_por_conta (exec ops) cid).map Transacao.id) ∧
    (∀ t ∈ obter_transacoes_por_conta (exec ops) cid, t.conta_id = cid) ∧
    (∀ t ∈ obter_transacoes_por_conta (exec ops) cid,
      ∃ tid, dictFind (exec ops).transacoes tid = some t) ∧
    (∀ tid t, dictFind (exec ops).transacoes tid = some t → t.conta_id = cid →
      t ∈ obter_transacoes_por_conta (exec ops) cid) ∧
    (obter_conta_por_id (exec ops) cid = none →
      obter_transacoes_por_conta (exec ops) cid = []) ∧
    ((∀ tid t, dictFind (exec ops).transacoes tid = some t → t.conta_id ≠ cid) →
      obter_transacoes_por_conta (exec ops) cid = []) ∧
    (obter_transacoes_por_conta (exec ops) cid).length =
      ((dictFind (exec ops).conta_id_to_transacoes cid).getD []).length := by
  have hs := inv_exec ops
  cases hidx : dictFind (exec ops).conta_id_to_transacoes cid with
  | none =>
    have hempty : obter_transacoes_por_conta (exec ops) cid = [] := by
      rw [obter_transacoes_def, hidx]
      rfl
    refine ⟨?_, ?_, ?_, ?_, ?_, ?_, ?_⟩
    · rw [hempty]
      exact List.Pairwise.nil
    · rw [hempty]
      intro t ht
      exact absurd ht (List.not_mem_nil t)
    · rw [hempty]
      intro t ht
      exact absurd ht (List.not_mem_nil t)
    · intro tid t hfind2 hcid
      obtain ⟨l', hfl', _⟩ := hs.txIndexed tid t hfind2
      rw [hcid, hidx] at hfl'
      exact absurd hfl' (by simp)
    · intro _
      exact hempty
    · intro _
      exact hempty
    · rw [hempty]
      rfl
  | some l =>
    have hmem : (cid, l) ∈ (exec ops).conta_id_to_transacoes := dictFind_mem hidx
    have hres := hs.idxResolve _ hmem
    have hfl : obter_transacoes_por_conta (exec ops) cid =
        l.filterMap fun tid => dictFind (exec ops).transacoes tid := by
      rw [obter_transacoes_def, hidx]
      rfl
    have hmapid : ((l.filterMap fun tid => dictFind (exec ops).transacoes tid).map
        Transacao.id) = l :=
      filterMap_map_id fun tid htid => by
        obtain ⟨t, ht, _, htid'⟩ := hres tid htid
        exact ⟨t, ht, htid'⟩
    refine ⟨?_, ?_, ?_, ?_, ?_, ?_, ?_⟩
    · rw [hfl, hmapid]
      exact hs.idxSorted _ hmem
    · intro t ht
      rw [hfl] at ht
      obtain ⟨tid, htidl, hfind2⟩ := List.mem_filterMap.1 ht
      obtain ⟨t', ht', hcid', _⟩ := hres tid htidl
      have hteq : t' = t := by
        rw [ht'] at hfind2
        exact Option.some.inj hfind2
      rw [← hteq]
      exact hcid'
    · intro t ht
      rw [hfl] at ht
      obtain ⟨tid, _, hfind2⟩ := List.mem_filterMap.1 ht
      exact ⟨tid, hfind2⟩
    · intro tid t hfind2 hcid
      obtain ⟨l', hfl', hmem'⟩ := hs.txIndexed tid t hfind2
      rw [hcid] at hfl'
      have hleq : l' = l := Option.some.inj (hfl'.symm.trans hidx)
      subst hleq
      rw [hfl]
      exact List.mem_filterMap.2 ⟨tid, hmem', hfind2⟩
    · intro hnone
      have hsome := hs.idxHasConta _ hmem
      have hnone' : dictFind (exec ops).contas cid = none := hnone
      rw [hnone'] at hsome
      exact absurd hsome (by simp)
    · intro hnotx
      rw [hfl]
      cases hl : l.filterMap (fun tid => dictFind (exec ops).transacoes tid) with
      | nil => rfl
      | cons t ts =>
        exfalso
        have ht : t ∈ l.filterMap fun tid => dictFind (exec ops).transacoes tid := by
          rw [hl]
          exact List.mem_cons_self _ _
        obtain ⟨tid, htidl, hfind2⟩ := List.mem_filterMap.1 ht
        obtain ⟨t', ht', hcid', _⟩ := hres tid htidl
        have hteq : t' = t := by
          rw [ht'] at hfind2
          exact Option.some.inj hfind2
        exact hnotx tid t hfind2 (by rw [← hteq]; exact hcid')
    · rw [hfl]
      simp only [Option.getD_some]
      conv_rhs => rw [← hmapid]
      rw [List.length_map]

/-- C8 witness: the two transactions of account 1 come back with strictly
increasing ids. -/
theorem C8_witness :
    List.Pairwise (· < ·)
      ((obter_transacoes_por_conta (exec opsLedger) 1).map Transacao.id) :=
  (C8_lista_transacoes opsLedger 1).1

end Bank
